import Mathlib

/-!
Verification of the T212-to-Digrin export pipeline (`src/main.py`).

The development shallowly embeds the script's two cores:

* the calendar arithmetic used to build the export period
  (`get_first_day_of_month`, `get_first_day_of_next_month`, built on
  `dateutil.relativedelta(months=1)`);
* the transformation pipeline `transform` (CSV table → action filter →
  ticker-blacklist filter → ticker remap → dtype normalization);
* the orchestration loops of `main` (export-creation retry loop, report
  polling loop, download and persistence sequence), modelled as pure
  functions consuming an explicit stream of provider responses and
  producing an explicit trace of externally visible events.

Tables are lists of rows; a cell is `Option String`, with `none` playing
the role of a missing value (pandas `NaN`/`NA`).
-/

namespace T212

/-! ## Calendar arithmetic (`get_first_day_of_month`, `get_first_day_of_next_month`) -/

structure Date where
  year : Int
  month : Nat
  day : Nat
  deriving DecidableEq, Repr

/-- Leap-year rule of the proleptic Gregorian calendar used by `datetime`. -/
def isLeap (y : Int) : Bool :=
  (y % 4 == 0 && y % 100 != 0) || (y % 400 == 0)

def daysInMonth (y : Int) (m : Nat) : Nat :=
  if m == 2 then (if isLeap y then 29 else 28)
  else if m == 4 || m == 6 || m == 9 || m == 11 then 30
  else 31

/-- A date is valid when its month is in 1..12 and its day fits the month. -/
def Date.valid (d : Date) : Prop :=
  1 ≤ d.month ∧ d.month ≤ 12 ∧ 1 ≤ d.day ∧ d.day ≤ daysInMonth d.year d.month

instance (d : Date) : Decidable d.valid := by
  unfold Date.valid; infer_instance

/-- The `dateutil.relativedelta(months=1)` addition: advance the month, rolling
December into January of the next year, and clamp the day to the length of
the target month. -/
def addOneMonth (d : Date) : Date :=
  let y : Int := if d.month == 12 then d.year + 1 else d.year
  let m : Nat := if d.month == 12 then 1 else d.month + 1
  { year := y, month := m, day := min d.day (daysInMonth y m) }

/-- Function `get_first_day_of_month` from `src/main.py`: `dt.replace(day=1)`. -/
def get_first_day_of_month (d : Date) : Date :=
  { d with day := 1 }

/-- Function `get_first_day_of_next_month` from `src/main.py`:
`(dt + relativedelta(months=1)).replace(day=1)`. -/
def get_first_day_of_next_month (d : Date) : Date :=
  { addOneMonth d with day := 1 }

/-! ## The transformation pipeline (`transform`) -/

/-- One cell of a pandas data frame; `none` models a missing value. -/
abbrev Cell := Option String

/-- A parsed CSV table: a header row naming the columns, and data rows of
cells addressed positionally. -/
structure Table where
  columns : List String
  rows : List (List Cell)
  deriving DecidableEq, Repr

/-- The list `TICKER_BLACKLIST` from `transform` in `src/main.py`. -/
def TICKER_BLACKLIST : List String := ["VNTRF", "BRK.A"]

/-- The mapping `TICKER_MAP` from `transform` in `src/main.py`. -/
def TICKER_MAP : List (String × String) :=
  [("VWCE", "VWCE.DE"), ("VUAA", "VUAA.DE"), ("SXRV", "SXRV.DE"),
   ("ZPRV", "ZPRV.DE"), ("ZPRX", "ZPRX.DE"), ("MC", "MC.PA"),
   ("ASML", "ASML.AS"), ("CSPX", "CSPX.L"), ("EISU", "EISU.L"),
   ("IITU", "IITU.L"), ("IUHC", "IUHC.L"), ("NDIA", "NDIA.L")]

/-- The two actions retained by the row filter of `transform`. -/
def tradeActions : List String := ["Market buy", "Market sell"]

/-- Index of a named column in the header, as pandas column selection
`df[name]` resolves it; `none` when the column is absent (a `KeyError`
in the source). -/
def colIdx (name : String) : List String → Option Nat
  | [] => none
  | c :: cs => if c == name then some 0 else (colIdx name cs).map (· + 1)

/-- The cell of a row at a column index; out-of-range access is a missing
value, as a short CSV row parses to `NaN` in the missing columns. -/
def cellAt (row : List Cell) (i : Nat) : Cell :=
  (row.get? i).join

/-- pandas `Series.isin(values)` on one cell: `False` on a missing value,
membership otherwise. -/
def cellIsin (c : Cell) (values : List String) : Bool :=
  match c with
  | none => false
  | some s => values.contains s

/-- Row filter of `transform`:
`report_df[report_df['Action'].isin(['Market buy', 'Market sell'])]`. -/
def actionFilter (ai : Nat) (rows : List (List Cell)) : List (List Cell) :=
  rows.filter (fun row => cellIsin (cellAt row ai) tradeActions)

/-- Blacklist filter of `transform`:
`report_df[~report_df['Ticker'].isin(TICKER_BLACKLIST)]`. -/
def blacklistFilter (ti : Nat) (rows : List (List Cell)) : List (List Cell) :=
  rows.filter (fun row => !(cellIsin (cellAt row ti) TICKER_BLACKLIST))

/-- pandas `Series.replace(mapping)` on one cell: a missing value stays
missing (it matches no key of the mapping); a present value is replaced by
its image when it is a key, else kept. -/
def remapCell (m : List (String × String)) (c : Cell) : Cell :=
  match c with
  | none => none
  | some s => some ((((m.find? (fun p => p.1 == s))).map Prod.snd).getD s)

/-- Ticker remap of `transform`:
`report_df['Ticker'] = report_df['Ticker'].replace(TICKER_MAP)`. -/
def remapRows (ti : Nat) (rows : List (List Cell)) : List (List Cell) :=
  rows.map (fun row => row.set ti (remapCell TICKER_MAP (cellAt row ti)))

/-- pandas `convert_dtypes()`: re-infers each column's dtype. It changes
only dtype metadata (e.g. `float64` to `Int64`, `NaN` to `NA`), not which
cells are present or missing nor their values, so on this cell model it is
the identity on the rows. -/
def convertDtypes (rows : List (List Cell)) : List (List Cell) := rows

/-- Function `transform` from `src/main.py`, on the parsed table: filter rows to the
two trade actions, drop blacklisted tickers, remap tickers, normalize
dtypes. `none` models the `KeyError` raised when the `Action` or `Ticker`
column is absent from the parsed CSV. -/
def transform (t : Table) : Option Table :=
  match colIdx "Action" t.columns, colIdx "Ticker" t.columns with
  | some ai, some ti =>
      some { columns := t.columns,
             rows := convertDtypes (remapRows ti (blacklistFilter ti (actionFilter ai t.rows))) }
  | _, _ => none

/-! ## Orchestration (`main`): creation loop, polling loop, persistence -/

/-- One report entry of the provider's job-listing response, with the
fields `main` reads via `dict.get` (absent keys give `none`). -/
structure Job where
  reportId : Option Int
  status : Option String
  downloadLink : Option String
  deriving DecidableEq, Repr

/-- The lookup in the polling loop of `main`:
`next(filter(lambda report: report.get('reportId') == report_id, reports[::-1]))`,
i.e. the first match scanning from the most recently listed entry backward.
`none` models the `StopIteration` that `next` raises on an empty iterator. -/
def findReport (reports : List Job) (rid : Int) : Option Job :=
  reports.reverse.find? (fun r => r.reportId == some rid)

/-- Externally visible events of an orchestration loop: an HTTP call to the
provider, or a `time.sleep` spacing delay. -/
inductive Ev
  | call
  | sleep
  deriving DecidableEq, Repr

/-- Result of the export-creation HTTP call: its status code and the
`reportId` field of its JSON body (`none` when the key is absent). -/
structure CreateResp where
  status : Nat
  reportId : Option Int
  deriving DecidableEq, Repr

/-- Function `create_export` from `src/main.py`, as a function of the provider's
response: on a non-200 status it returns `None`; on 200 it returns
`response.json().get('reportId')`, which is `None` when the key is absent. -/
def create_export (r : CreateResp) : Option Int :=
  if r.status != 200 then none else r.reportId

/-- Python truthiness of `report_id` in `if report_id: break`: `None` and
`0` are falsy, any other integer is truthy. -/
def truthy : Option Int → Bool
  | none => false
  | some n => n != 0

/-- The export-creation retry loop of `main`, consuming one provider
response per iteration: loop until `create_export` returns a truthy id,
sleeping 10 s after every falsy result. Returns the trace of calls and
sleeps, and the id the loop breaks with (`none` when the response stream
runs out while the loop would still be spinning). -/
def creationLoop : List CreateResp → List Ev × Option Int
  | [] => ([], none)
  | r :: rest =>
      if truthy (create_export r) then ([Ev.call], create_export r)
      else (Ev.call :: Ev.sleep :: (creationLoop rest).1, (creationLoop rest).2)

/-- Outcome of the polling loop of `main`. -/
inductive PollOutcome
  | finished (link : Option String)
  | stopIteration
  | outOfSnapshots
  deriving DecidableEq, Repr

/-- The polling loop of `main`, consuming one `fetch_reports` result per
iteration. The guard `if not reports:` is Python truthiness: it holds both
for `None` (a rate-limited listing) and for a successful but empty listing
`[]`, and in either case the loop sleeps 10 s and retries. On a successful
nonempty listing the loop looks the id up from the most recent entry
backward; `next` raises `StopIteration` when no entry matches; on status
`Finished` the loop breaks with the entry's `downloadLink`; otherwise it
immediately fetches again, with no intervening sleep. -/
def pollLoop (rid : Int) : List (Option (List Job)) → List Ev × PollOutcome
  | [] => ([], PollOutcome.outOfSnapshots)
  | none :: rest =>
      (Ev.call :: Ev.sleep :: (pollLoop rid rest).1, (pollLoop rid rest).2)
  | some [] :: rest =>
      (Ev.call :: Ev.sleep :: (pollLoop rid rest).1, (pollLoop rid rest).2)
  | some (r :: rs) :: rest =>
      match findReport (r :: rs) rid with
      | none => ([Ev.call], PollOutcome.stopIteration)
      | some j =>
          if j.status == some "Finished" then ([Ev.call], PollOutcome.finished j.downloadLink)
          else (Ev.call :: (pollLoop rid rest).1, (pollLoop rid rest).2)

/-- A write to object storage: `s3_put_object` archives the raw bytes,
`s3_put_df` persists the transformed table. -/
inductive StorageWrite
  | putObject (key : String)
  | putDf (key : String)
  deriving DecidableEq, Repr

/-- The artifact download response: HTTP status and the body parsed as a
table (`none` when the bytes do not parse as a CSV table). -/
structure DownloadResp where
  status : Nat
  body : Option Table
  deriving DecidableEq, Repr

/-- Whether an event trace contains two adjacent provider calls with no
spacing delay between them. -/
def hasConsecutiveCalls : List Ev → Bool
  | Ev.call :: Ev.call :: _ => true
  | _ :: evs => hasConsecutiveCalls evs
  | [] => false

/-- The tail of `main` after the polling loop, as a function of the
download response: on a non-200 download it returns with no writes; else it
writes the raw bytes under `t212/<filename>`, then runs `transform`, and
only when `transform` succeeds writes the table under `digrin/<filename>`.
Returns the storage writes issued in order and whether the run completed. -/
def persistRun (filename : String) (resp : DownloadResp) : List StorageWrite × Bool :=
  if resp.status != 200 then ([], false)
  else
    match resp.body.bind transform with
    | none => ([StorageWrite.putObject ("t212/" ++ filename)], false)
    | some _ =>
        ([StorageWrite.putObject ("t212/" ++ filename),
          StorageWrite.putDf ("digrin/" ++ filename)], true)

/-! ## Helper lemmas -/

theorem daysInMonth_pos (y : Int) (m : Nat) : 1 ≤ daysInMonth y m := by
  unfold daysInMonth
  split
  · split <;> norm_num
  · split <;> norm_num

theorem colIdx_get (name : String) :
    ∀ (cols : List String) (i : Nat), colIdx name cols = some i → cols[i]? = some name := by
  intro cols
  induction cols with
  | nil => intro i h; simp [colIdx] at h
  | cons c cs ih =>
    intro i h
    rw [colIdx] at h
    by_cases hc : (c == name) = true
    · rw [if_pos hc] at h
      cases h
      simp [eq_of_beq hc]
    · rw [if_neg hc] at h
      cases hj : colIdx name cs with
      | none => rw [hj] at h; simp at h
      | some j =>
        rw [hj] at h
        simp at h
        subst h
        simpa using ih j hj

theorem colIdx_action_ne_ticker (cols : List String) (ai ti : Nat)
    (hA : colIdx "Action" cols = some ai) (hT : colIdx "Ticker" cols = some ti) :
    ai ≠ ti := by
  intro e
  have h1 := colIdx_get "Action" cols ai hA
  have h2 := colIdx_get "Ticker" cols ti hT
  rw [e, h2] at h1
  exact absurd (Option.some.inj h1) (by decide)

theorem cellAt_set_ne (row : List Cell) (i j : Nat) (c : Cell) (h : i ≠ j) :
    cellAt (row.set i c) j = cellAt row j := by
  simp [cellAt, List.getElem?_set_ne h]

theorem cellAt_set_remap (m : List (String × String)) (row : List Cell) (i : Nat) :
    cellAt (row.set i (remapCell m (cellAt row i))) i = remapCell m (cellAt row i) := by
  by_cases h : i < row.length
  · simp [cellAt, List.getElem?_set_self, h]
  · have hle : row.length ≤ i := Nat.le_of_not_lt h
    have hnone : row[i]? = none := by simp [List.getElem?_eq_none hle]
    rw [List.set_eq_of_length_le]
    · simp [cellAt, hnone, remapCell]
    · exact hle

theorem tickerMap_values_not_blacklisted :
    ∀ p ∈ TICKER_MAP, TICKER_BLACKLIST.contains p.2 = false := by decide

theorem tickerMap_values_not_keys :
    ∀ p ∈ TICKER_MAP, TICKER_MAP.find? (fun q => q.1 == p.2) = none := by decide

theorem remapCell_not_blacklisted (c : Cell) (h : cellIsin c TICKER_BLACKLIST = false) :
    cellIsin (remapCell TICKER_MAP c) TICKER_BLACKLIST = false := by
  cases c with
  | none => rfl
  | some s =>
    rw [remapCell]
    cases hf : TICKER_MAP.find? (fun q => q.1 == s) with
    | none => simpa [cellIsin] using h
    | some p =>
      have hp : p ∈ TICKER_MAP := List.mem_of_find?_eq_some hf
      simpa [cellIsin] using tickerMap_values_not_blacklisted p hp

theorem remapCell_idem (c : Cell) :
    remapCell TICKER_MAP (remapCell TICKER_MAP c) = remapCell TICKER_MAP c := by
  cases c with
  | none => rfl
  | some s =>
    rw [remapCell]
    cases hf : TICKER_MAP.find? (fun q => q.1 == s) with
    | none => simp [remapCell, hf]
    | some p =>
      have hp : p ∈ TICKER_MAP := List.mem_of_find?_eq_some hf
      simp [remapCell, tickerMap_values_not_keys p hp]

theorem find?_eq_head?_filter (p : α → Bool) (l : List α) :
    l.find? p = (l.filter p).head? := by
  induction l with
  | nil => rfl
  | cons a l ih =>
    cases hpa : p a
    · rw [List.find?_cons_of_neg _ (by simp [hpa]),
        List.filter_cons_of_neg (by simp [hpa]), ih]
    · rw [List.find?_cons_of_pos _ hpa, List.filter_cons_of_pos hpa, List.head?_cons]

theorem findReport_eq_getLast (reports : List Job) (rid : Int) :
    findReport reports rid =
      (reports.filter (fun r => r.reportId == some rid)).getLast? := by
  rw [findReport, find?_eq_head?_filter, List.filter_reverse, List.head?_reverse]

theorem pollLoop_head (rid : Int) (s : Option (List Job)) (rest : List (Option (List Job))) :
    ∃ tl, (pollLoop rid (s :: rest)).1 = Ev.call :: tl := by
  match s with
  | none => exact ⟨Ev.sleep :: (pollLoop rid rest).1, rfl⟩
  | some [] => exact ⟨Ev.sleep :: (pollLoop rid rest).1, rfl⟩
  | some (r :: rs) =>
    cases hf : findReport (r :: rs) rid with
    | none => exact ⟨[], by simp [pollLoop, hf]⟩
    | some j =>
      by_cases h : (j.status == some "Finished") = true
      · exact ⟨[], by simp [pollLoop, hf, h]⟩
      · exact ⟨(pollLoop rid rest).1, by simp [pollLoop, hf, h]⟩

theorem creationLoop_head (r : CreateResp) (rest : List CreateResp) :
    ∃ tl, (creationLoop (r :: rest)).1 = Ev.call :: tl := by
  by_cases h : truthy (create_export r) = true
  · exact ⟨[], by simp [creationLoop, h]⟩
  · exact ⟨Ev.sleep :: (creationLoop rest).1, by simp [creationLoop, h]⟩

/-! ## Claims -/

/-- C1: for every valid input month, the export request covers exactly one
calendar month: the period start `from_dt` is the first day of the target
month, the period end `to_dt` is the first day of the following month, so
`to_dt` is the period start plus one calendar month, with a December start
rolling into January of the next year. -/
theorem c1_export_period_is_one_calendar_month (d : Date) (h : d.valid) :
    (get_first_day_of_month d).day = 1 ∧
    (get_first_day_of_next_month d).day = 1 ∧
    get_first_day_of_next_month d = addOneMonth (get_first_day_of_month d) ∧
    (d.month = 12 → get_first_day_of_next_month d = ⟨d.year + 1, 1, 1⟩) ∧
    (d.month ≠ 12 → get_first_day_of_next_month d = ⟨d.year, d.month + 1, 1⟩) := by
  obtain ⟨h1, h12, hd1, hdm⟩ := h
  refine ⟨rfl, rfl, ?_, ?_, ?_⟩
  · unfold get_first_day_of_next_month get_first_day_of_month addOneMonth
    simp
    exact daysInMonth_pos _ _
  · intro hm
    unfold get_first_day_of_next_month addOneMonth
    simp [hm]
  · intro hm
    unfold get_first_day_of_next_month addOneMonth
    have : (d.month == 12) = false := by
      simp [hm]
    simp [this]

/-- C1 witness: a concrete December 2023 date is valid and its export
period rolls into January 2024. -/
theorem c1_witness :
    (Date.mk 2023 12 15).valid ∧
    get_first_day_of_next_month (Date.mk 2023 12 15) = Date.mk 2024 1 1 :=
  ⟨by decide, (c1_export_period_is_one_calendar_month (Date.mk 2023 12 15)
      (by decide)).2.2.2.1 rfl⟩

/-- C2 counterexample: a downloaded body whose table lacks the `Ticker`
column makes `transform` fail, yet the run has already written the
raw-bytes object: a run that fails before both artifacts are written still
persists the raw object, so partial persistence does occur. -/
theorem c2_counterexample :
    transform (Table.mk ["Action"] []) = none ∧
    persistRun "2024-01.csv" (DownloadResp.mk 200 (some (Table.mk ["Action"] []))) =
      ([StorageWrite.putObject "t212/2024-01.csv"], false) ∧
    (persistRun "2024-01.csv" (DownloadResp.mk 200 (some (Table.mk ["Action"] [])))).1 ≠ [] := by
  refine ⟨by decide, by decide, by decide⟩

/-- C2 amended: `main` writes the raw-bytes object before it runs
`transform`, so a run whose transformation step fails has already persisted
the raw object and never writes the transformed-table object; a run that
fails at download writes neither object. -/
theorem c2_transform_failure_keeps_raw_write (fn : String) (body : Option Table)
    (h : body.bind transform = none) :
    persistRun fn (DownloadResp.mk 200 body) =
      ([StorageWrite.putObject ("t212/" ++ fn)], false) ∧
    (∀ k, StorageWrite.putDf k ∉ (persistRun fn (DownloadResp.mk 200 body)).1) ∧
    ∀ st b2, st ≠ 200 → persistRun fn (DownloadResp.mk st b2) = ([], false) := by
  have h1 : persistRun fn (DownloadResp.mk 200 body) =
      ([StorageWrite.putObject ("t212/" ++ fn)], false) := by
    simp [persistRun, h]
  refine ⟨h1, ?_, ?_⟩
  · intro k
    rw [h1]
    simp
  · intro st b2 hst
    simp [persistRun, hst]

/-- C2 witness: the amended statement applied to a concrete failing body. -/
theorem c2_witness :
    persistRun "2024-01.csv" (DownloadResp.mk 200 (some (Table.mk ["Action"] []))) =
      ([StorageWrite.putObject ("t212/" ++ "2024-01.csv")], false) :=
  (c2_transform_failure_keeps_raw_write "2024-01.csv" (some (Table.mk ["Action"] []))
      (by decide)).1

/-- C3 counterexample: with the requested id 5 absent from the first
successful snapshot but present in the next one, the polling loop
terminates with `StopIteration` after a single listing call: the absence of
the id from a single successful snapshot by itself terminates the run. -/
theorem c3_counterexample :
    pollLoop 5 [some [Job.mk (some 7) (some "Finished") (some "x")],
                some [Job.mk (some 5) (some "Finished") (some "y")]] =
      ([Ev.call], PollOutcome.stopIteration) ∧
    (findReport [Job.mk (some 5) (some "Finished") (some "y")] 5).isSome = true := by
  refine ⟨by decide, by decide⟩

/-- C3 amended: the polling loop terminates with `StopIteration` as soon as
one successful nonempty listing snapshot lacks the requested id, regardless
of the snapshots that would follow; there is no multi-attempt budget for
absence. A successful but empty listing is falsy under `if not reports:`
and is treated like a failed one: sleep and retry. -/
theorem c3_single_absent_snapshot_terminates (rid : Int) (r : Job) (rs : List Job)
    (rest : List (Option (List Job))) (h : findReport (r :: rs) rid = none) :
    pollLoop rid (some (r :: rs) :: rest) = ([Ev.call], PollOutcome.stopIteration) ∧
    pollLoop rid (some [] :: rest) =
      (Ev.call :: Ev.sleep :: (pollLoop rid rest).1, (pollLoop rid rest).2) := by
  constructor
  · simp [pollLoop, h]
  · rfl

/-- C3 witness: the amended statement applied to a concrete nonempty
snapshot without the requested id. -/
theorem c3_witness :
    pollLoop 5 [some [Job.mk (some 7) (some "Finished") (some "x")]] =
      ([Ev.call], PollOutcome.stopIteration) :=
  (c3_single_absent_snapshot_terminates 5
    (Job.mk (some 7) (some "Finished") (some "x")) [] [] (by decide)).1

/-- C4: on a snapshot holding several entries with the requested id, the
polling loop resolves the job to the most recently listed matching entry
(the last matching element of the listing), and that entry's status and
download link alone decide whether the loop finishes with its link or keeps
polling. -/
theorem c4_poll_resolves_most_recent_entry (reports : List Job) (rid : Int) :
    findReport reports rid =
      (reports.filter (fun r => r.reportId == some rid)).getLast? ∧
    ∀ (rest : List (Option (List Job))) (j : Job), findReport reports rid = some j →
      pollLoop rid (some reports :: rest) =
        (if j.status == some "Finished"
         then ([Ev.call], PollOutcome.finished j.downloadLink)
         else (Ev.call :: (pollLoop rid rest).1, (pollLoop rid rest).2)) := by
  refine ⟨findReport_eq_getLast reports rid, ?_⟩
  intro rest j hj
  cases reports with
  | nil => exact absurd hj (by simp [findReport])
  | cons r rs =>
    by_cases h : (j.status == some "Finished") = true
    · simp [pollLoop, hj, h]
    · simp [pollLoop, hj, h]

/-- C4 witness: with a `Pending` and a `Finished` entry listed for id 5 in
that order, the loop resolves to the later `Finished` entry and terminates
with its download link. -/
theorem c4_witness :
    pollLoop 5 [some [Job.mk (some 5) (some "Pending") none,
                      Job.mk (some 5) (some "Finished") (some "url")]] =
      ([Ev.call], PollOutcome.finished (some "url")) := by
  have h := (c4_poll_resolves_most_recent_entry
      [Job.mk (some 5) (some "Pending") none,
       Job.mk (some 5) (some "Finished") (some "url")] 5).2 []
      (Job.mk (some 5) (some "Finished") (some "url")) (by decide)
  simpa using h

/-- C5 counterexample: with the job listed as `Pending` in the first
successful snapshot, the loop issues the next listing call immediately: the
event trace holds two consecutive provider calls with no sleep between
them. -/
theorem c5_counterexample :
    (pollLoop 5 [some [Job.mk (some 5) (some "Pending") none],
                 some [Job.mk (some 5) (some "Finished") (some "y")]]).1 =
      [Ev.call, Ev.call] ∧
    hasConsecutiveCalls
      (pollLoop 5 [some [Job.mk (some 5) (some "Pending") none],
                   some [Job.mk (some 5) (some "Finished") (some "y")]]).1 = true := by
  refine ⟨by decide, by decide⟩

/-- C5 amended: the polling loop sleeps before the next listing call only
when the listing call itself failed (returned no data); when a successful
listing holds the job with a non-`Finished` status, the next listing call
follows immediately with no intervening wait. -/
theorem c5_sleep_only_after_failed_listing (rid : Int) (j : Job)
    (rest : List (Option (List Job)))
    (hid : j.reportId = some rid) (hst : (j.status == some "Finished") = false) :
    (pollLoop rid (some [j] :: rest)).1 = Ev.call :: (pollLoop rid rest).1 ∧
    (pollLoop rid (none :: rest)).1 = Ev.call :: Ev.sleep :: (pollLoop rid rest).1 ∧
    ∀ s rest2, rest = s :: rest2 →
      ∃ tl, (pollLoop rid (some [j] :: rest)).1 = Ev.call :: Ev.call :: tl := by
  have hf : findReport [j] rid = some j := by
    simp [findReport, List.find?, hid]
  refine ⟨by simp [pollLoop, hf, hst], rfl, ?_⟩
  intro s rest2 hrest
  subst hrest
  obtain ⟨tl, htl⟩ := pollLoop_head rid s rest2
  exact ⟨tl, by simp [pollLoop, hf, hst, htl]⟩

/-- C5 witness: the amended statement applied to a concrete pending job
followed by one more snapshot. -/
theorem c5_witness :
    (pollLoop 5 [some [Job.mk (some 5) (some "Pending") none], none]).1 =
      Ev.call :: (pollLoop 5 [none]).1 :=
  (c5_sleep_only_after_failed_listing 5 (Job.mk (some 5) (some "Pending") none)
      [none] (by decide) (by decide)).1

/-- C10: a 200 export-creation response whose body lacks a `reportId`, or
carries the falsy id 0, makes `create_export` return a falsy value, with
the same truthiness as a rate-limited non-200 failure; `if report_id:` then
fails, so the creation loop sleeps and issues another provider-side
export-creation request for the same period. -/
theorem c10_falsy_report_id_is_retried (r : CreateResp) (rest : List CreateResp)
    (h : truthy (create_export r) = false) :
    creationLoop (r :: rest) =
      (Ev.call :: Ev.sleep :: (creationLoop rest).1, (creationLoop rest).2) ∧
    create_export (CreateResp.mk 200 none) = none ∧
    truthy (create_export (CreateResp.mk 200 none)) =
      truthy (create_export (CreateResp.mk 429 (some 7))) ∧
    create_export (CreateResp.mk 200 (some 0)) = some 0 ∧
    truthy (create_export (CreateResp.mk 200 (some 0))) = false ∧
    ∀ r2 rest2, rest = r2 :: rest2 →
      ∃ tl, (creationLoop (r :: rest)).1 = Ev.call :: Ev.sleep :: Ev.call :: tl := by
  refine ⟨by simp [creationLoop, h], rfl, rfl, rfl, rfl, ?_⟩
  intro r2 rest2 hrest
  subst hrest
  obtain ⟨tl, htl⟩ := creationLoop_head r2 rest2
  have houter : (creationLoop (r :: r2 :: rest2)).1 =
      Ev.call :: Ev.sleep :: (creationLoop (r2 :: rest2)).1 := by
    rw [creationLoop, if_neg]
    simp [h]
  exact ⟨tl, by rw [houter, htl]⟩

/-- C10 witness: a 200 response with `reportId` 0 followed by a good
response yields two creation calls separated by a sleep. -/
theorem c10_witness :
    creationLoop [CreateResp.mk 200 (some 0), CreateResp.mk 200 (some 7)] =
      ([Ev.call, Ev.sleep, Ev.call], some 7) := by
  have h := (c10_falsy_report_id_is_retried (CreateResp.mk 200 (some 0))
      [CreateResp.mk 200 (some 7)] (by decide)).1
  rw [h]
  decide

/-- C6: the row filter of `transform` retains exactly the rows whose
`Action` cell is one of the two strings "Market buy" and "Market sell";
on a four-row table with actions Market buy, Market sell, Dividend and
Interest, only the first two rows survive `transform`. -/
theorem c6_action_filter_retains_exactly_trades (ai : Nat) (rows : List (List Cell))
    (row : List Cell) :
    (row ∈ actionFilter ai rows ↔
      row ∈ rows ∧
        (cellAt row ai = some "Market buy" ∨ cellAt row ai = some "Market sell")) ∧
    transform (Table.mk ["Action", "Ticker"]
        [[some "Market buy", some "AAPL"], [some "Market sell", some "MSFT"],
         [some "Dividend", some "AAPL"], [some "Interest", some "X"]]) =
      some (Table.mk ["Action", "Ticker"]
        [[some "Market buy", some "AAPL"], [some "Market sell", some "MSFT"]]) := by
  constructor
  · rw [actionFilter, List.mem_filter]
    have hiff : cellIsin (cellAt row ai) tradeActions = true ↔
        cellAt row ai = some "Market buy" ∨ cellAt row ai = some "Market sell" := by
      cases hc : cellAt row ai with
      | none => simp [cellIsin]
      | some s => simp [cellIsin, tradeActions]
    rw [hiff]
  · decide

/-- C7: a surviving row with a missing `Ticker` cell does not raise: the
remap step is total and keeps every row, and it sends a missing ticker to a
missing value, never to the string literal "None"; a concrete buy row with
a missing ticker passes through the whole of `transform` with its ticker
still missing. -/
theorem c7_null_ticker_remaps_to_null :
    remapCell TICKER_MAP none = none ∧
    remapCell TICKER_MAP none ≠ some "None" ∧
    (∀ ti rows, (remapRows ti rows).length = rows.length) ∧
    (∀ ti row, cellAt (row.set ti (remapCell TICKER_MAP (cellAt row ti))) ti =
        remapCell TICKER_MAP (cellAt row ti)) ∧
    transform (Table.mk ["Action", "Ticker"] [[some "Market buy", none]]) =
      some (Table.mk ["Action", "Ticker"] [[some "Market buy", none]]) := by
  refine ⟨rfl, by decide, ?_, ?_, by decide⟩
  · intro ti rows
    simp [remapRows]
  · intro ti row
    exact cellAt_set_remap TICKER_MAP row ti

/-- C9: `transform` keeps the column list unchanged, returns at most as
many rows as its input, and every output row is an input row with only its
`Ticker` cell rewritten: the cell in every other column position is
unchanged. -/
theorem c9_same_columns_fewer_rows_ticker_only (t u : Table)
    (h : transform t = some u) :
    u.columns = t.columns ∧
    u.rows.length ≤ t.rows.length ∧
    ∀ row ∈ u.rows, ∃ ti, colIdx "Ticker" t.columns = some ti ∧
      ∃ orig, orig ∈ t.rows ∧
        row = orig.set ti (remapCell TICKER_MAP (cellAt orig ti)) ∧
        ∀ j, j ≠ ti → cellAt row j = cellAt orig j := by
  cases hA : colIdx "Action" t.columns with
  | none => rw [transform, hA] at h; simp at h
  | some ai =>
    cases hT : colIdx "Ticker" t.columns with
    | none => rw [transform, hA, hT] at h; simp at h
    | some ti =>
      have ht : transform t = some (Table.mk t.columns
          (remapRows ti (blacklistFilter ti (actionFilter ai t.rows)))) := by
        simp [transform, hA, hT, convertDtypes]
      rw [ht] at h
      injection h with h
      subst h
      refine ⟨rfl, ?_, ?_⟩
      · calc (remapRows ti (blacklistFilter ti (actionFilter ai t.rows))).length
            = (blacklistFilter ti (actionFilter ai t.rows)).length := by
              simp [remapRows]
          _ ≤ (actionFilter ai t.rows).length := List.length_filter_le _ _
          _ ≤ t.rows.length := List.length_filter_le _ _
      · intro row hrow
        refine ⟨ti, rfl, ?_⟩
        rw [remapRows] at hrow
        obtain ⟨orig, horig, rfl⟩ := List.mem_map.mp hrow
        rw [blacklistFilter] at horig
        obtain ⟨horig, -⟩ := List.mem_filter.mp horig
        rw [actionFilter] at horig
        obtain ⟨horig, -⟩ := List.mem_filter.mp horig
        refine ⟨orig, horig, rfl, ?_⟩
        intro j hj
        exact cellAt_set_ne orig ti j _ (Ne.symm hj)

/-- C9 witness: a one-row table keeps its columns through `transform`. -/
theorem c9_witness :
    (Table.mk ["Action", "Ticker"] [[some "Market buy", some "VWCE.DE"]]).columns =
      (Table.mk ["Action", "Ticker"] [[some "Market buy", some "VWCE"]]).columns :=
  (c9_same_columns_fewer_rows_ticker_only
    (Table.mk ["Action", "Ticker"] [[some "Market buy", some "VWCE"]])
    (Table.mk ["Action", "Ticker"] [[some "Market buy", some "VWCE.DE"]])
    (by decide)).1

theorem actionFilter_of_remapped (ai ti : Nat) (hne : ai ≠ ti)
    (rows : List (List Cell)) :
    actionFilter ai (remapRows ti (blacklistFilter ti (actionFilter ai rows))) =
      remapRows ti (blacklistFilter ti (actionFilter ai rows)) := by
  rw [actionFilter, List.filter_eq_self]
  intro x hx
  rw [remapRows] at hx
  obtain ⟨orig, horig, rfl⟩ := List.mem_map.mp hx
  rw [cellAt_set_ne orig ti ai _ (Ne.symm hne)]
  rw [blacklistFilter] at horig
  obtain ⟨horig, -⟩ := List.mem_filter.mp horig
  rw [actionFilter] at horig
  obtain ⟨-, hact⟩ := List.mem_filter.mp horig
  exact hact

theorem blacklistFilter_of_remapped (ai ti : Nat) (rows : List (List Cell)) :
    blacklistFilter ti (remapRows ti (blacklistFilter ti (actionFilter ai rows))) =
      remapRows ti (blacklistFilter ti (actionFilter ai rows)) := by
  rw [blacklistFilter, List.filter_eq_self]
  intro x hx
  rw [remapRows] at hx
  obtain ⟨orig, horig, rfl⟩ := List.mem_map.mp hx
  rw [cellAt_set_remap]
  rw [blacklistFilter] at horig
  obtain ⟨-, hb⟩ := List.mem_filter.mp horig
  have hb2 : cellIsin (cellAt orig ti) TICKER_BLACKLIST = false := by
    simpa using hb
  simpa using remapCell_not_blacklisted _ hb2

theorem remapRows_of_remapped (ti : Nat) (rows2 : List (List Cell)) :
    remapRows ti (remapRows ti rows2) = remapRows ti rows2 := by
  have hfix : ∀ x ∈ remapRows ti rows2,
      x.set ti (remapCell TICKER_MAP (cellAt x ti)) = x := by
    intro x hx
    rw [remapRows] at hx
    obtain ⟨orig, -, rfl⟩ := List.mem_map.mp hx
    rw [cellAt_set_remap, remapCell_idem, List.set_set]
  conv_lhs => rw [remapRows]
  calc ((remapRows ti rows2).map fun row =>
          row.set ti (remapCell TICKER_MAP (cellAt row ti)))
      = (remapRows ti rows2).map id := List.map_congr_left hfix
    _ = remapRows ti rows2 := List.map_id _

/-- C8: `transform` is idempotent: applying the pipeline (action filter,
blacklist filter, ticker remap, dtype normalization) to the result of a
previous application returns that result unchanged. -/
theorem c8_transform_idempotent (t u : Table) (h : transform t = some u) :
    transform u = some u := by
  cases hA : colIdx "Action" t.columns with
  | none => rw [transform, hA] at h; simp at h
  | some ai =>
    cases hT : colIdx "Ticker" t.columns with
    | none => rw [transform, hA, hT] at h; simp at h
    | some ti =>
      have hne := colIdx_action_ne_ticker t.columns ai ti hA hT
      have ht : transform t = some (Table.mk t.columns
          (remapRows ti (blacklistFilter ti (actionFilter ai t.rows)))) := by
        simp [transform, hA, hT, convertDtypes]
      rw [ht] at h
      injection h with h
      subst h
      have hgoal : transform (Table.mk t.columns
          (remapRows ti (blacklistFilter ti (actionFilter ai t.rows)))) =
          some (Table.mk t.columns
            (remapRows ti (blacklistFilter ti (actionFilter ai
              (remapRows ti (blacklistFilter ti (actionFilter ai t.rows))))))) := by
        simp [transform, hA, hT, convertDtypes]
      rw [hgoal, actionFilter_of_remapped ai ti hne, blacklistFilter_of_remapped ai ti,
        remapRows_of_remapped]

/-- C8 witness: re-running `transform` on an already transformed two-row
table returns it unchanged. -/
theorem c8_witness :
    transform (Table.mk ["Action", "Ticker"]
        [[some "Market buy", some "VWCE.DE"], [some "Market sell", some "MSFT"]]) =
      some (Table.mk ["Action", "Ticker"]
        [[some "Market buy", some "VWCE.DE"], [some "Market sell", some "MSFT"]]) :=
  c8_transform_idempotent
    (Table.mk ["Action", "Ticker"]
      [[some "Market buy", some "VWCE"], [some "Market sell", some "MSFT"]])
    (Table.mk ["Action", "Ticker"]
      [[some "Market buy", some "VWCE.DE"], [some "Market sell", some "MSFT"]])
    (by decide)

end T212
